import Mathlib

/-
Verification of the candidate-solution core of the metaheuristics library
(src/src/cpp/mhcpp/core.h) against its natural-language specification.

The C++ header defines, among interface declarations, the concrete template
class HyperCube<T> backed by a std::map<string, MMV>, the template class
FitnessAssignedScores<T, TSys> with its CompareTo, the interface
IObjectiveEvaluator<TSysConf> with a defaulted IsCloneable, and the
pure-virtual interface IHyperCubeOperations (GetCentroid and friends, which
have no implementation in the repository).

Embedding conventions:
- The numeric type double (the only instantiation the header uses: Define
  takes doubles and MMV stores doubles) is modelled by Rat; the embedded
  operations only store, reload and average values, so the idealisation is
  exact for everything proved here.
- std::map<string, MMV> is modelled by an association list with unique keys.
  The map of the source is key-sorted, but no embedded operation observes
  iteration order (GetVariableNames and GetConfigurationDescription have
  constant stub bodies), so insertion position is unobservable and the model
  appends fresh keys at the end.
- Every C++ member function that could in principle raise is embedded with
  an Except error channel, so that presence and absence of failure are both
  statable. The bodies in core.h never throw, and accordingly the embedded
  bodies only ever return Except.ok.
-/

namespace mhcpp

/-- Error taxonomy of the specification (section 7). The C++ code in core.h
never raises any of these; the type exists so that claims about failure are
statable against the embedded operations. -/
inductive HCError where
  | DomainError
  | UnknownVariableError
  | IncompatibleGeometryError
  | EmptyInputError
  | IncompatibleSystemError
  | IndexOutOfRangeError
deriving DecidableEq, Repr

/-- Embeds the private nested class HyperCube::MMV of core.h:
fields Name, and the doubles Min, Max, Value. -/
structure MMV where
  Name : String
  Min : Rat
  Max : Rat
  Value : Rat
deriving DecidableEq, Repr

/-- The entry std::map::operator[] inserts for an absent key: a
value-initialised MMV, i.e. the default constructor MMV() with empty name
and defaulted numeric fields. -/
def MMV.valueInit : MMV := ⟨"", 0, 0, 0⟩

/-- Model of the field std::map<string, MMV> def of HyperCube. -/
abbrev HCMap := List (String × MMV)

/-- Lookup in the map model, as std::map::find. -/
def mapFind : HCMap → String → Option MMV
  | [], _ => none
  | (k, e) :: rest, key => if k = key then some e else mapFind rest key

/-- Assignment def[key] = e to an existing or fresh key: replaces the entry
in place when the key is present, inserts it otherwise. -/
def mapAssign : HCMap → String → MMV → HCMap
  | [], key, e => [(key, e)]
  | (k, e0) :: rest, key, e =>
      if k = key then (k, e) :: rest else (k, e0) :: mapAssign rest key e

/-- Read access def[key] through std::map::operator[]: yields the existing
entry, or inserts a value-initialised MMV for an absent key and yields that.
Returns the entry together with the possibly grown map. -/
def mapIndex (m : HCMap) (key : String) : MMV × HCMap :=
  match mapFind m key with
  | some e => (e, m)
  | none => (MMV.valueInit, m ++ [(key, MMV.valueInit)])

/-- Embeds the template class HyperCube<T> of core.h, whose sole state is
std::map<string, MMV> def. -/
structure HyperCube where
  defn : HCMap
deriving DecidableEq, Repr

/-- GetVariableNames of HyperCube in core.h constructs an empty vector and
returns it, whatever the state. -/
def HyperCube.GetVariableNames (_h : HyperCube) : List String := []

/-- Define(name, min, max, value): def[name] = MMV(name, min, max, value).
No validation of min against max is performed and nothing is thrown. -/
def HyperCube.Define (h : HyperCube) (name : String) (min max value : Rat) :
    Except HCError HyperCube :=
  .ok ⟨mapAssign h.defn name ⟨name, min, max, value⟩⟩

/-- Dimensions(): def.size(). -/
def HyperCube.Dimensions (h : HyperCube) : Nat := h.defn.length

/-- GetValue(variableName): return def[variableName].Value. operator[]
default-inserts on an absent key; nothing is thrown. -/
def HyperCube.GetValue (h : HyperCube) (variableName : String) :
    Except HCError (Rat × HyperCube) :=
  .ok ((mapIndex h.defn variableName).1.Value, ⟨(mapIndex h.defn variableName).2⟩)

/-- GetMaxValue(variableName): return def[variableName].Max. -/
def HyperCube.GetMaxValue (h : HyperCube) (variableName : String) :
    Except HCError (Rat × HyperCube) :=
  .ok ((mapIndex h.defn variableName).1.Max, ⟨(mapIndex h.defn variableName).2⟩)

/-- GetMinValue(variableName): return def[variableName].Min. -/
def HyperCube.GetMinValue (h : HyperCube) (variableName : String) :
    Except HCError (Rat × HyperCube) :=
  .ok ((mapIndex h.defn variableName).1.Min, ⟨(mapIndex h.defn variableName).2⟩)

/-- SetValue(variableName, value): def[variableName].Value = value.
operator[] default-inserts on an absent key, then the Value field of the
entry is overwritten; nothing is thrown. -/
def HyperCube.SetValue (h : HyperCube) (variableName : String) (value : Rat) :
    Except HCError HyperCube :=
  .ok ⟨mapAssign (mapIndex h.defn variableName).2 variableName
        ⟨(mapIndex h.defn variableName).1.Name,
         (mapIndex h.defn variableName).1.Min,
         (mapIndex h.defn variableName).1.Max,
         value⟩⟩

/-- SetMinValue(variableName, value): def[variableName].Min = value. -/
def HyperCube.SetMinValue (h : HyperCube) (variableName : String) (value : Rat) :
    Except HCError HyperCube :=
  .ok ⟨mapAssign (mapIndex h.defn variableName).2 variableName
        ⟨(mapIndex h.defn variableName).1.Name,
         value,
         (mapIndex h.defn variableName).1.Max,
         (mapIndex h.defn variableName).1.Value⟩⟩

/-- SetMaxValue(variableName, value): def[variableName].Max = value. -/
def HyperCube.SetMaxValue (h : HyperCube) (variableName : String) (value : Rat) :
    Except HCError HyperCube :=
  .ok ⟨mapAssign (mapIndex h.defn variableName).2 variableName
        ⟨(mapIndex h.defn variableName).1.Name,
         (mapIndex h.defn variableName).1.Min,
         value,
         (mapIndex h.defn variableName).1.Value⟩⟩

/-- GetConfigurationDescription of HyperCube in core.h: return "". -/
def HyperCube.GetConfigurationDescription (_h : HyperCube) : String := ""

/-- ApplyConfiguration(void* system) of HyperCube in core.h has an empty
body: the target (opaque, hence the type parameter) is left untouched and
nothing is thrown. -/
def HyperCube.ApplyConfiguration {S : Type} (_h : HyperCube) (system : S) :
    Except HCError S :=
  .ok system

/-- Assigning a key finds exactly the assigned entry. -/
theorem mapFind_mapAssign_self (m : HCMap) (k : String) (e : MMV) :
    mapFind (mapAssign m k e) k = some e := by
  induction m with
  | nil => simp [mapAssign, mapFind]
  | cons kv rest ih =>
    obtain ⟨k0, e0⟩ := kv
    by_cases hk : k0 = k
    · simp [mapAssign, mapFind, hk]
    · simp [mapAssign, mapFind, hk, ih]

/-- Assigning a key leaves every other key untouched. -/
theorem mapFind_mapAssign_ne (m : HCMap) (k k2 : String) (e : MMV)
    (hne : k2 ≠ k) : mapFind (mapAssign m k e) k2 = mapFind m k2 := by
  have hne2 : k ≠ k2 := Ne.symm hne
  induction m with
  | nil => simp [mapAssign, mapFind, hne2]
  | cons kv rest ih =>
    obtain ⟨k0, e0⟩ := kv
    by_cases hk : k0 = k
    · subst hk
      simp [mapAssign, mapFind, hne2]
    · simp [mapAssign, mapFind, hk, ih]

/-- On a map without the key, assigning the key just appended rewrites that
last entry in place. -/
theorem mapAssign_append_self (m : HCMap) (k : String) (e e2 : MMV)
    (hnone : mapFind m k = none) :
    mapAssign (m ++ [(k, e)]) k e2 = m ++ [(k, e2)] := by
  induction m with
  | nil => simp [mapAssign]
  | cons kv rest ih =>
    obtain ⟨k0, e0⟩ := kv
    by_cases hk : k0 = k
    · simp [mapFind, hk] at hnone
    · simp only [mapFind, hk, if_false] at hnone
      simp [mapAssign, hk, ih hnone]

/-- mapIndex on a present key returns the entry and does not grow the map. -/
theorem mapIndex_present (m : HCMap) (k : String) (e : MMV)
    (hsome : mapFind m k = some e) : mapIndex m k = (e, m) := by
  simp [mapIndex, hsome]

/-- mapIndex on an absent key default-inserts it. -/
theorem mapIndex_absent (m : HCMap) (k : String)
    (hnone : mapFind m k = none) :
    mapIndex m k = (MMV.valueInit, m ++ [(k, MMV.valueInit)]) := by
  simp [mapIndex, hnone]

/-- C1: for every variable name and every triple (min, max, value) with
min ≤ max, Define(name, min, max, value) followed by GetValue(name),
GetMinValue(name), GetMaxValue(name) returns exactly value, min and max. -/
theorem C1_define_get_roundtrip (h : HyperCube) (name : String)
    (mn mx v : Rat) (hle : mn ≤ mx) :
    ∃ h2, h.Define name mn mx v = .ok h2 ∧
      h2.GetValue name = .ok (v, h2) ∧
      h2.GetMinValue name = .ok (mn, h2) ∧
      h2.GetMaxValue name = .ok (mx, h2) := by
  refine ⟨⟨mapAssign h.defn name ⟨name, mn, mx, v⟩⟩, rfl, ?_, ?_, ?_⟩ <;>
    simp [HyperCube.GetValue, HyperCube.GetMinValue, HyperCube.GetMaxValue,
      mapIndex_present _ _ _ (mapFind_mapAssign_self h.defn name ⟨name, mn, mx, v⟩)]

/-- Witness for C1 at the concrete input x with bounds 0 and 10, value 5. -/
theorem C1_define_get_roundtrip_witness :
    (0 : Rat) ≤ 10 ∧
    (∃ h2, HyperCube.Define ⟨[]⟩ "x" 0 10 5 = .ok h2 ∧
      h2.GetValue "x" = .ok (5, h2) ∧
      h2.GetMinValue "x" = .ok (0, h2) ∧
      h2.GetMaxValue "x" = .ok (10, h2)) :=
  ⟨by norm_num, C1_define_get_roundtrip ⟨[]⟩ "x" 0 10 5 (by norm_num)⟩

/-- C2 counterexample: Define with min 1 > max 0 does not fail with
DomainError; it succeeds and stores the inverted bounds. -/
theorem C2_min_gt_max_counterexample :
    (0 : Rat) < 1 ∧
    HyperCube.Define ⟨[]⟩ "x" 1 0 5 = .ok ⟨[("x", ⟨"x", 1, 0, 5⟩)]⟩ :=
  ⟨by norm_num, rfl⟩

/-- C2 (amended): calls to Define, SetMinValue or SetMaxValue whose
resulting bounds have min > max do not fail: HyperCube performs no
DomainError check; the given bounds are stored as is and the entries of all
other names are unchanged (HyperCube implements no SetMinMaxValue). -/
theorem C2_amended_no_domain_check (h : HyperCube) (name : String)
    (mn mx v nmn nmx : Rat) (e : MMV)
    (hgt : mx < mn) (he : mapFind h.defn name = some e)
    (hmin : e.Max < nmn) (hmax : nmx < e.Min) :
    (∃ h2, h.Define name mn mx v = .ok h2 ∧
       mapFind h2.defn name = some ⟨name, mn, mx, v⟩ ∧
       ∀ k, k ≠ name → mapFind h2.defn k = mapFind h.defn k) ∧
    (∃ h2, h.SetMinValue name nmn = .ok h2 ∧
       mapFind h2.defn name = some ⟨e.Name, nmn, e.Max, e.Value⟩ ∧
       ∀ k, k ≠ name → mapFind h2.defn k = mapFind h.defn k) ∧
    (∃ h2, h.SetMaxValue name nmx = .ok h2 ∧
       mapFind h2.defn name = some ⟨e.Name, e.Min, nmx, e.Value⟩ ∧
       ∀ k, k ≠ name → mapFind h2.defn k = mapFind h.defn k) := by
  have hidx := mapIndex_present h.defn name e he
  refine ⟨⟨⟨mapAssign h.defn name ⟨name, mn, mx, v⟩⟩, rfl,
            mapFind_mapAssign_self _ _ _,
            fun k hk => mapFind_mapAssign_ne _ _ _ _ hk⟩,
          ⟨⟨mapAssign h.defn name ⟨e.Name, nmn, e.Max, e.Value⟩⟩, ?_,
            mapFind_mapAssign_self _ _ _,
            fun k hk => mapFind_mapAssign_ne _ _ _ _ hk⟩,
          ⟨⟨mapAssign h.defn name ⟨e.Name, e.Min, nmx, e.Value⟩⟩, ?_,
            mapFind_mapAssign_self _ _ _,
            fun k hk => mapFind_mapAssign_ne _ _ _ _ hk⟩⟩
  · simp [HyperCube.SetMinValue, hidx]
  · simp [HyperCube.SetMaxValue, hidx]

/-- Witness for the amended C2 at a concrete one-variable state. -/
theorem C2_amended_no_domain_check_witness :
    ((0 : Rat) < 1 ∧
     mapFind [("x", (⟨"x", 0, 0, 3⟩ : MMV))] "x" = some ⟨"x", 0, 0, 3⟩ ∧
     (MMV.Max ⟨"x", 0, 0, 3⟩ < 1) ∧ ((-1 : Rat) < MMV.Min ⟨"x", 0, 0, 3⟩)) ∧
    ((∃ h2, HyperCube.Define ⟨[("x", ⟨"x", 0, 0, 3⟩)]⟩ "x" 1 0 5 = .ok h2 ∧
       mapFind h2.defn "x" = some ⟨"x", 1, 0, 5⟩ ∧
       ∀ k, k ≠ "x" → mapFind h2.defn k = mapFind [("x", (⟨"x", 0, 0, 3⟩ : MMV))] k) ∧
     (∃ h2, HyperCube.SetMinValue ⟨[("x", ⟨"x", 0, 0, 3⟩)]⟩ "x" 1 = .ok h2 ∧
       mapFind h2.defn "x" = some ⟨"x", 1, 0, 3⟩ ∧
       ∀ k, k ≠ "x" → mapFind h2.defn k = mapFind [("x", (⟨"x", 0, 0, 3⟩ : MMV))] k) ∧
     (∃ h2, HyperCube.SetMaxValue ⟨[("x", ⟨"x", 0, 0, 3⟩)]⟩ "x" (-1) = .ok h2 ∧
       mapFind h2.defn "x" = some ⟨"x", 0, -1, 3⟩ ∧
       ∀ k, k ≠ "x" → mapFind h2.defn k = mapFind [("x", (⟨"x", 0, 0, 3⟩ : MMV))] k)) :=
  ⟨⟨by norm_num, rfl, by norm_num, by norm_num⟩,
   C2_amended_no_domain_check ⟨[("x", ⟨"x", 0, 0, 3⟩)]⟩ "x" 1 0 5 1 (-1)
     ⟨"x", 0, 0, 3⟩ (by norm_num) rfl (by norm_num) (by norm_num)⟩

/-- C3 counterexample: GetValue on an undefined name does not fail with
UnknownVariableError; it succeeds and default-inserts the name. -/
theorem C3_undefined_get_counterexample :
    HyperCube.GetValue ⟨[]⟩ "x" = .ok (0, ⟨[("x", MMV.valueInit)]⟩) := rfl

/-- C3 (amended): for every HyperCube and every name not defined in it,
GetValue, GetMinValue, GetMaxValue and SetValue do not fail with
UnknownVariableError: each succeeds, the Get calls default-insert a
value-initialised entry for the name and return its field, and SetValue
default-inserts such an entry and overwrites its Value with v. -/
theorem C3_amended_undefined_access_succeeds (h : HyperCube) (name : String)
    (v : Rat) (hnone : mapFind h.defn name = none) :
    h.GetValue name = .ok (MMV.valueInit.Value, ⟨h.defn ++ [(name, MMV.valueInit)]⟩) ∧
    h.GetMinValue name = .ok (MMV.valueInit.Min, ⟨h.defn ++ [(name, MMV.valueInit)]⟩) ∧
    h.GetMaxValue name = .ok (MMV.valueInit.Max, ⟨h.defn ++ [(name, MMV.valueInit)]⟩) ∧
    h.SetValue name v =
      .ok ⟨h.defn ++ [(name, ⟨MMV.valueInit.Name, MMV.valueInit.Min, MMV.valueInit.Max, v⟩)]⟩ := by
  have hidx := mapIndex_absent h.defn name hnone
  refine ⟨?_, ?_, ?_, ?_⟩
  · simp [HyperCube.GetValue, hidx]
  · simp [HyperCube.GetMinValue, hidx]
  · simp [HyperCube.GetMaxValue, hidx]
  · simp [HyperCube.SetValue, hidx, mapAssign_append_self h.defn name _ _ hnone]

/-- Witness for the amended C3 on the empty HyperCube and the name y. -/
theorem C3_amended_undefined_access_succeeds_witness :
    mapFind ([] : HCMap) "y" = none ∧
    (HyperCube.GetValue ⟨[]⟩ "y" = .ok (MMV.valueInit.Value, ⟨[] ++ [("y", MMV.valueInit)]⟩) ∧
     HyperCube.GetMinValue ⟨[]⟩ "y" = .ok (MMV.valueInit.Min, ⟨[] ++ [("y", MMV.valueInit)]⟩) ∧
     HyperCube.GetMaxValue ⟨[]⟩ "y" = .ok (MMV.valueInit.Max, ⟨[] ++ [("y", MMV.valueInit)]⟩) ∧
     HyperCube.SetValue ⟨[]⟩ "y" 7 =
       .ok ⟨[] ++ [("y", ⟨MMV.valueInit.Name, MMV.valueInit.Min, MMV.valueInit.Max, 7⟩)]⟩) :=
  ⟨rfl, C3_amended_undefined_access_succeeds ⟨[]⟩ "y" 7 rfl⟩

/-- C4: evaluates the code at the failing input: after defining the variable
x, GetVariableNames still returns the empty sequence (its body constructs
and returns an empty vector) although Dimensions returns 1. -/
theorem C4_getVariableNames_stub_bug :
    HyperCube.Define ⟨[]⟩ "x" 0 10 5 = .ok ⟨[("x", ⟨"x", 0, 10, 5⟩)]⟩ ∧
    HyperCube.GetVariableNames ⟨[("x", ⟨"x", 0, 10, 5⟩)]⟩ = [] ∧
    HyperCube.Dimensions ⟨[("x", ⟨"x", 0, 10, 5⟩)]⟩ = 1 :=
  ⟨rfl, rfl, rfl⟩

/-- C5: evaluates the code at the failing input: with x in [0, 10] valued 5
and y in [-1, 1] valued 0 defined, GetConfigurationDescription returns the
empty string (its body is return ""), not a name=value rendering such as
"x=5;y=0". -/
theorem C5_description_stub_bug :
    HyperCube.GetConfigurationDescription
      ⟨[("x", ⟨"x", 0, 10, 5⟩), ("y", ⟨"y", -1, 1, 0⟩)]⟩ = "" ∧
    "" ≠ "x=5;y=0" :=
  ⟨rfl, by decide⟩

/-- C6: evaluates the code at the failing input: a HyperCube whose value 50
for x lies outside its declared bounds [0, 10], applied to a target holding
no binding for x, does not fail with IncompatibleSystemError: the body of
ApplyConfiguration is empty, so the call returns successfully, binds nothing
and leaves the target unchanged. -/
theorem C6_applyConfiguration_stub_bug :
    HyperCube.ApplyConfiguration ⟨[("x", ⟨"x", 0, 10, 50⟩)]⟩
      ([] : List (String × Rat)) = .ok [] ∧
    ¬((0 : Rat) ≤ 50 ∧ (50 : Rat) ≤ 10) :=
  ⟨rfl, by norm_num⟩

/-- Current value of a variable of a hypercube, read without growing the
map; used by the spec-modelled geometry operation below. -/
def HyperCube.valueAt (h : HyperCube) (k : String) : Rat :=
  ((mapFind h.defn k).getD MMV.valueInit).Value

/-- Modelled from the spec: decides the precondition of section 4.2 that two
spaces share an identical variable set with identical (min, max) per
variable. -/
def sameGeometry (p q : HyperCube) : Bool :=
  (p.defn.all fun kv =>
    match mapFind q.defn kv.1 with
    | some e => decide (e.Min = kv.2.Min) && decide (e.Max = kv.2.Max)
    | none => false) &&
  (q.defn.all fun kv => (mapFind p.defn kv.1).isSome)

/-- Modelled from the spec: the centroid entry for one variable, bounds and
name kept, value the arithmetic mean of the values of the inputs. -/
def centroidEntry (points : List HyperCube) (k : String) (e : MMV) : MMV :=
  ⟨e.Name, e.Min, e.Max, ((points.map fun q => q.valueAt k).sum) / ((points.length : Nat) : Rat)⟩

/-- Modelled from the spec: IHyperCubeOperations::GetCentroid is declared
pure virtual in core.h and no implementation of it exists anywhere in the
repository. Following section 4.2 of the spec: fails with EmptyInputError on
an empty input list, fails with IncompatibleGeometryError unless all inputs
share an identical variable set with identical (min, max) per variable, and
otherwise returns a new hypercube with the same bounds whose value for each
variable is the arithmetic mean of the values of the inputs. -/
def GetCentroid (points : List HyperCube) : Except HCError HyperCube :=
  match points with
  | [] => .error .EmptyInputError
  | p :: rest =>
    if rest.all (fun q => sameGeometry p q) then
      .ok ⟨p.defn.map fun kv => (kv.1, centroidEntry (p :: rest) kv.1 kv.2)⟩
    else .error .IncompatibleGeometryError

/-- Lookup through the centroid construction: the entry found is the
centroid entry of the entry found in the first input. -/
theorem mapFind_centroidMap (m : HCMap) (points : List HyperCube) (k : String) :
    mapFind (m.map fun kv => (kv.1, centroidEntry points kv.1 kv.2)) k
      = (mapFind m k).map (centroidEntry points k) := by
  induction m with
  | nil => simp [mapFind]
  | cons kv rest ih =>
    obtain ⟨k0, e0⟩ := kv
    by_cases hk : k0 = k
    · subst hk
      simp [mapFind]
    · simp [mapFind, hk, ih]

/-- C7: on a non-empty list of hypercubes sharing an identical variable set
with identical bounds per variable, GetCentroid returns a hypercube with the
same variables and bounds whose value per variable is the arithmetic mean of
the values of the inputs; it fails with EmptyInputError on an empty list and
with IncompatibleGeometryError on mismatched variable sets or bounds. -/
theorem C7_getCentroid_spec (p : HyperCube) (rest : List HyperCube)
    (hgeo : rest.all (fun q => sameGeometry p q) = true) :
    GetCentroid [] = .error HCError.EmptyInputError ∧
    (∀ q qs, qs.all (fun r => sameGeometry q r) = false →
       GetCentroid (q :: qs) = .error HCError.IncompatibleGeometryError) ∧
    (∃ c, GetCentroid (p :: rest) = .ok c ∧
       (∀ k, (mapFind c.defn k).isSome = (mapFind p.defn k).isSome) ∧
       (∀ k e, mapFind p.defn k = some e →
          mapFind c.defn k = some ⟨e.Name, e.Min, e.Max,
            (((p :: rest).map fun q => q.valueAt k).sum)
              / (((p :: rest).length : Nat) : Rat)⟩)) := by
  refine ⟨rfl, fun q qs hf => by simp [GetCentroid, hf],
    ⟨⟨p.defn.map fun kv => (kv.1, centroidEntry (p :: rest) kv.1 kv.2)⟩,
      by simp [GetCentroid, hgeo], fun k => ?_, fun k e he => ?_⟩⟩
  · rw [show (HyperCube.mk (p.defn.map fun kv =>
        (kv.1, centroidEntry (p :: rest) kv.1 kv.2))).defn
        = p.defn.map fun kv => (kv.1, centroidEntry (p :: rest) kv.1 kv.2) from rfl,
      mapFind_centroidMap]
    cases mapFind p.defn k <;> rfl
  · rw [show (HyperCube.mk (p.defn.map fun kv =>
        (kv.1, centroidEntry (p :: rest) kv.1 kv.2))).defn
        = p.defn.map fun kv => (kv.1, centroidEntry (p :: rest) kv.1 kv.2) from rfl,
      mapFind_centroidMap, he]
    rfl

/-- Concrete sample space for the centroid scenario: x in [0, 10] valued 0,
y in [0, 2] valued 0. -/
def centroidSampleA : HyperCube := ⟨[("x", ⟨"x", 0, 10, 0⟩), ("y", ⟨"y", 0, 2, 0⟩)]⟩

/-- Concrete sample space for the centroid scenario: x in [0, 10] valued 10,
y in [0, 2] valued 2. -/
def centroidSampleB : HyperCube := ⟨[("x", ⟨"x", 0, 10, 10⟩), ("y", ⟨"y", 0, 2, 2⟩)]⟩

/-- Witness for C7 at the scenario of the spec: the centroid of (x=0, y=0)
and (x=10, y=2) with identical bounds. -/
theorem C7_getCentroid_spec_witness :
    ([centroidSampleB].all (fun q => sameGeometry centroidSampleA q) = true) ∧
    (GetCentroid [] = .error HCError.EmptyInputError ∧
     (∀ q qs, qs.all (fun r => sameGeometry q r) = false →
        GetCentroid (q :: qs) = .error HCError.IncompatibleGeometryError) ∧
     (∃ c, GetCentroid (centroidSampleA :: [centroidSampleB]) = .ok c ∧
        (∀ k, (mapFind c.defn k).isSome = (mapFind centroidSampleA.defn k).isSome) ∧
        (∀ k e, mapFind centroidSampleA.defn k = some e →
           mapFind c.defn k = some ⟨e.Name, e.Min, e.Max,
             (((centroidSampleA :: [centroidSampleB]).map fun q => q.valueAt k).sum)
               / (((centroidSampleA :: [centroidSampleB]).length : Nat) : Rat)⟩))) :=
  ⟨by decide, C7_getCentroid_spec centroidSampleA [centroidSampleB] (by decide)⟩

/-- Embeds the template class FitnessAssignedScores<T, TSys> of core.h: the
objective scores (held by pointer in the source, modelled by the carried
object) and the fitness value of comparable type T. -/
structure FitnessAssignedScores (T : Type) (TSys : Type) where
  Scores : TSys
  FitnessValue : T

/-- CompareTo of FitnessAssignedScores in core.h returns
this.FitnessValue.CompareTo(other.FitnessValue): the IComparable convention
of a negative, zero or positive integer for less, equal, greater on the
comparable fitness type. -/
def FitnessAssignedScores.CompareTo {T TSys : Type} [LinearOrder T]
    (a b : FitnessAssignedScores T TSys) : Int :=
  if a.FitnessValue < b.FitnessValue then -1
  else if a.FitnessValue = b.FitnessValue then 0
  else 1

/-- CompareTo is negative exactly when the first fitness value is smaller. -/
theorem compareTo_neg_iff {T TSys : Type} [LinearOrder T]
    (a b : FitnessAssignedScores T TSys) :
    a.CompareTo b < 0 ↔ a.FitnessValue < b.FitnessValue := by
  unfold FitnessAssignedScores.CompareTo
  split_ifs with h1 h2
  · exact iff_of_true (by norm_num) h1
  · exact iff_of_false (by norm_num) h1
  · exact iff_of_false (by norm_num) h1

/-- C8: the order CompareTo induces is determined solely by the numeric
order of the fitness values (the carried objective scores never influence
it), equal fitness values compare as ties, and better-than is transitive. -/
theorem C8_compareTo_order {T TSys : Type} [LinearOrder T]
    (a b c a2 b2 : FitnessAssignedScores T TSys)
    (ha : a.FitnessValue = a2.FitnessValue)
    (hb : b.FitnessValue = b2.FitnessValue) :
    a.CompareTo b = a2.CompareTo b2 ∧
    (a.CompareTo b = 0 ↔ a.FitnessValue = b.FitnessValue) ∧
    (a.CompareTo b < 0 → b.CompareTo c < 0 → a.CompareTo c < 0) := by
  refine ⟨by unfold FitnessAssignedScores.CompareTo; rw [ha, hb], ?_, ?_⟩
  · unfold FitnessAssignedScores.CompareTo
    split_ifs with h1 h2
    · exact iff_of_false (by norm_num) (ne_of_lt h1)
    · exact iff_of_true rfl h2
    · exact iff_of_false (by norm_num) h2
  · intro h1 h2
    rw [compareTo_neg_iff] at h1 h2 ⊢
    exact lt_trans h1 h2

/-- Witness for C8 at concrete rational fitness values 1, 2, 3, with
distinct carried score strings on either side of each comparison. -/
theorem C8_compareTo_order_witness :
    ((⟨"scoresA", (1 : Rat)⟩ : FitnessAssignedScores Rat String).FitnessValue
       = (⟨"otherA", 1⟩ : FitnessAssignedScores Rat String).FitnessValue) ∧
    ((⟨"scoresB", (2 : Rat)⟩ : FitnessAssignedScores Rat String).FitnessValue
       = (⟨"otherB", 2⟩ : FitnessAssignedScores Rat String).FitnessValue) ∧
    (FitnessAssignedScores.CompareTo ⟨"scoresA", (1 : Rat)⟩ (⟨"scoresB", 2⟩ : FitnessAssignedScores Rat String)
       = FitnessAssignedScores.CompareTo ⟨"otherA", 1⟩ ⟨"otherB", 2⟩ ∧
     (FitnessAssignedScores.CompareTo ⟨"scoresA", (1 : Rat)⟩ (⟨"scoresB", 2⟩ : FitnessAssignedScores Rat String) = 0 ↔
       (FitnessAssignedScores.FitnessValue ⟨"scoresA", (1 : Rat)⟩
          = FitnessAssignedScores.FitnessValue (⟨"scoresB", 2⟩ : FitnessAssignedScores Rat String))) ∧
     (FitnessAssignedScores.CompareTo ⟨"scoresA", (1 : Rat)⟩ (⟨"scoresB", 2⟩ : FitnessAssignedScores Rat String) < 0 →
      FitnessAssignedScores.CompareTo (⟨"scoresB", 2⟩ : FitnessAssignedScores Rat String) ⟨"scoresC", 3⟩ < 0 →
      FitnessAssignedScores.CompareTo (⟨"scoresA", (1 : Rat)⟩ : FitnessAssignedScores Rat String) ⟨"scoresC", 3⟩ < 0)) :=
  ⟨rfl, rfl, C8_compareTo_order ⟨"scoresA", 1⟩ ⟨"scoresB", 2⟩ ⟨"scoresC", 3⟩
    ⟨"otherA", 1⟩ ⟨"otherB", 2⟩ rfl rfl⟩

/-- Anywhere a key is appended to a map that did not hold it, the key is
subsequently found with the appended entry. -/
theorem mapFind_append_self (m : HCMap) (k : String) (e : MMV)
    (hnone : mapFind m k = none) : mapFind (m ++ [(k, e)]) k = some e := by
  induction m with
  | nil => simp [mapFind]
  | cons kv rest ih =>
    obtain ⟨k0, e0⟩ := kv
    by_cases hk : k0 = k
    · simp [mapFind, hk] at hnone
    · simp only [mapFind, hk, if_false] at hnone
      simp [mapFind, hk, ih hnone]

/-- C9: accessing a name never defined, through GetValue, GetMinValue,
GetMaxValue, SetValue, SetMinValue or SetMaxValue, does not fail; the access
inserts a new default-constructed entry for the name into the underlying
map, so Dimensions grows by one as a side effect. -/
theorem C9_undefined_access_inserts (h : HyperCube) (name : String) (v : Rat)
    (hnone : mapFind h.defn name = none) :
    (∃ r h2, h.GetValue name = .ok (r, h2) ∧
       h2.Dimensions = h.Dimensions + 1 ∧ (mapFind h2.defn name).isSome = true) ∧
    (∃ r h2, h.GetMinValue name = .ok (r, h2) ∧
       h2.Dimensions = h.Dimensions + 1 ∧ (mapFind h2.defn name).isSome = true) ∧
    (∃ r h2, h.GetMaxValue name = .ok (r, h2) ∧
       h2.Dimensions = h.Dimensions + 1 ∧ (mapFind h2.defn name).isSome = true) ∧
    (∃ h2, h.SetValue name v = .ok h2 ∧
       h2.Dimensions = h.Dimensions + 1 ∧ (mapFind h2.defn name).isSome = true) ∧
    (∃ h2, h.SetMinValue name v = .ok h2 ∧
       h2.Dimensions = h.Dimensions + 1 ∧ (mapFind h2.defn name).isSome = true) ∧
    (∃ h2, h.SetMaxValue name v = .ok h2 ∧
       h2.Dimensions = h.Dimensions + 1 ∧ (mapFind h2.defn name).isSome = true) := by
  have hidx := mapIndex_absent h.defn name hnone
  have hass : ∀ e2 : MMV, mapAssign (h.defn ++ [(name, MMV.valueInit)]) name e2
      = h.defn ++ [(name, e2)] := fun e2 => mapAssign_append_self h.defn name _ e2 hnone
  have hdim : ∀ e2 : MMV,
      (HyperCube.mk (h.defn ++ [(name, e2)])).Dimensions = h.Dimensions + 1 := by
    intro e2
    simp [HyperCube.Dimensions]
  have hfind : ∀ e2 : MMV, (mapFind (h.defn ++ [(name, e2)]) name).isSome = true := by
    intro e2
    rw [mapFind_append_self _ _ _ hnone]
    rfl
  refine ⟨⟨MMV.valueInit.Value, ⟨h.defn ++ [(name, MMV.valueInit)]⟩,
            by simp [HyperCube.GetValue, hidx], hdim _, hfind _⟩,
          ⟨MMV.valueInit.Min, ⟨h.defn ++ [(name, MMV.valueInit)]⟩,
            by simp [HyperCube.GetMinValue, hidx], hdim _, hfind _⟩,
          ⟨MMV.valueInit.Max, ⟨h.defn ++ [(name, MMV.valueInit)]⟩,
            by simp [HyperCube.GetMaxValue, hidx], hdim _, hfind _⟩,
          ⟨⟨h.defn ++ [(name, ⟨MMV.valueInit.Name, MMV.valueInit.Min, MMV.valueInit.Max, v⟩)]⟩,
            by simp [HyperCube.SetValue, hidx, hass], hdim _, hfind _⟩,
          ⟨⟨h.defn ++ [(name, ⟨MMV.valueInit.Name, v, MMV.valueInit.Max, MMV.valueInit.Value⟩)]⟩,
            by simp [HyperCube.SetMinValue, hidx, hass], hdim _, hfind _⟩,
          ⟨⟨h.defn ++ [(name, ⟨MMV.valueInit.Name, MMV.valueInit.Min, v, MMV.valueInit.Value⟩)]⟩,
            by simp [HyperCube.SetMaxValue, hidx, hass], hdim _, hfind _⟩⟩

/-- Witness for C9 on the empty HyperCube and the name z. -/
theorem C9_undefined_access_inserts_witness :
    mapFind ([] : HCMap) "z" = none ∧
    ((∃ r h2, HyperCube.GetValue ⟨[]⟩ "z" = .ok (r, h2) ∧
        h2.Dimensions = HyperCube.Dimensions ⟨[]⟩ + 1 ∧ (mapFind h2.defn "z").isSome = true) ∧
     (∃ r h2, HyperCube.GetMinValue ⟨[]⟩ "z" = .ok (r, h2) ∧
        h2.Dimensions = HyperCube.Dimensions ⟨[]⟩ + 1 ∧ (mapFind h2.defn "z").isSome = true) ∧
     (∃ r h2, HyperCube.GetMaxValue ⟨[]⟩ "z" = .ok (r, h2) ∧
        h2.Dimensions = HyperCube.Dimensions ⟨[]⟩ + 1 ∧ (mapFind h2.defn "z").isSome = true) ∧
     (∃ h2, HyperCube.SetValue ⟨[]⟩ "z" 4 = .ok h2 ∧
        h2.Dimensions = HyperCube.Dimensions ⟨[]⟩ + 1 ∧ (mapFind h2.defn "z").isSome = true) ∧
     (∃ h2, HyperCube.SetMinValue ⟨[]⟩ "z" 4 = .ok h2 ∧
        h2.Dimensions = HyperCube.Dimensions ⟨[]⟩ + 1 ∧ (mapFind h2.defn "z").isSome = true) ∧
     (∃ h2, HyperCube.SetMaxValue ⟨[]⟩ "z" 4 = .ok h2 ∧
        h2.Dimensions = HyperCube.Dimensions ⟨[]⟩ + 1 ∧ (mapFind h2.defn "z").isSome = true)) :=
  ⟨rfl, C9_undefined_access_inserts ⟨[]⟩ "z" 4 rfl⟩

/-- Embeds the interface IObjectiveEvaluator<TSysConf> of core.h: the pure
virtual EvaluateScore together with the virtual IsCloneable, whose base
implementation returns false; a concrete evaluator may override the
latter. -/
structure IObjectiveEvaluator (TSysConf : Type) (TScores : Type) where
  EvaluateScore : TSysConf → TScores
  isCloneableOverride : Option Bool

/-- Virtual dispatch of IsCloneable: the override when the concrete
evaluator provides one, otherwise the base body, which returns false. -/
def IObjectiveEvaluator.IsCloneable {TSysConf TScores : Type}
    (ev : IObjectiveEvaluator TSysConf TScores) : Bool :=
  match ev.isCloneableOverride with
  | some b => b
  | none => false

/-- C10: an evaluator that does not override the cloneability query reports
IsCloneable = false, so it declares itself non-cloneable by default. -/
theorem C10_isCloneable_default {TSysConf TScores : Type}
    (ev : IObjectiveEvaluator TSysConf TScores)
    (hnoov : ev.isCloneableOverride = none) :
    ev.IsCloneable = false := by
  simp [IObjectiveEvaluator.IsCloneable, hnoov]

/-- Witness for C10 on a concrete evaluator without an override. -/
theorem C10_isCloneable_default_witness :
    (IObjectiveEvaluator.mk (fun h : HyperCube => h.Dimensions) none).isCloneableOverride
      = none ∧
    (IObjectiveEvaluator.mk (fun h : HyperCube => h.Dimensions) none).IsCloneable = false :=
  ⟨rfl, C10_isCloneable_default _ rfl⟩

end mhcpp
